import Mathlib

/-!
Verification development for the `react-native-cached-image` cache manager:
the key-derivation utilities (`src/utils/pathUtils.js`) and the cache
orchestrator (`ImageCacheManager`, `src/unnamed/part_000`).

JavaScript semantics are embedded shallowly:
* machine 32-bit arithmetic (`Math.imul`, `| 0`) is modelled on `Int` with
  explicit wrapping;
* the `crypto-js` SHA-1 of a string is implemented bit-for-bit (UTF-8 input,
  lowercase hex output);
* promise-based, stateful orchestrator code becomes explicit state passing
  over a `World` (record store + file system), where a rejected promise is
  `Except.error` and side effects performed before rejection persist.
-/

namespace JSModel

/-- JS 32-bit wrap: interpret an integer as a signed 32-bit value (`| 0`). -/
def wrap32 (n : Int) : Int :=
  (n + 2147483648) % 4294967296 - 2147483648

/-- `Math.imul`: 32-bit signed multiplication. -/
def imul (a b : Int) : Int :=
  wrap32 (a * b)

/-- `hashCode` from pathUtils.js:
`h = (Math.imul(31, h) + s.charCodeAt(i)) | 0` folded over the string. -/
def hashCode (s : String) : Int :=
  s.toList.foldl (fun h c => wrap32 (imul 31 h + (c.toNat : Int))) 0

/-- JS `String(n)` for an integer-valued number (decimal, `-` sign). -/
def jsIntToString (n : Int) : String :=
  if n < 0 then "-" ++ Nat.repr n.natAbs else Nat.repr n.natAbs

/-- JS `a.substring(i, j)` on a string viewed as a char list (BMP inputs). -/
def jsSubstring (s : String) (i j : Nat) : String :=
  String.mk ((s.toList.take j).drop i)

/-- JS `s.substring(i)` to the end of the string. -/
def jsSubstringFrom (s : String) (i : Nat) : String :=
  String.mk (s.toList.drop i)

/-- First index at which the pattern occurs in the list, if any. -/
def firstMatchIdx (pat l : List Char) : Option Nat :=
  (List.range (l.length + 1)).find? (fun i => pat.isPrefixOf (l.drop i))

/-- First index at which `pat` occurs in `s` (JS `indexOf`), if any. -/
def jsIndexOf (s pat : String) : Option Nat :=
  firstMatchIdx pat.toList s.toList

/-- JS `s.includes(pat)`. -/
def jsIncludes (s pat : String) : Bool :=
  (jsIndexOf s pat).isSome

/-- ASCII lowercasing of one character (the only case the URL family in
scope exercises of JS `toLowerCase` / lodash `toLower`). -/
def asciiLower (c : Char) : Char :=
  if 65 ≤ c.toNat ∧ c.toNat ≤ 90 then Char.ofNat (c.toNat + 32) else c

/-- JS `s.toLowerCase()` on ASCII strings. -/
def jsToLower (s : String) : String :=
  String.mk (s.toList.map asciiLower)

/-- Split on every occurrence of a (nonempty) separator, fuel-driven. -/
def splitChars : Nat → List Char → List Char → List (List Char)
  | 0, _, l => [l]
  | fuel + 1, sep, l =>
    match firstMatchIdx sep l with
    | none => [l]
    | some i => l.take i :: splitChars fuel sep (l.drop (i + sep.length))

/-- JS `s.split(sep)` for a nonempty separator (also the behaviour of
`String.splitOn`, re-implemented structurally). -/
def jsSplitOn (s sep : String) : List String :=
  if sep = "" then [s]
  else (splitChars (s.toList.length + 1) sep.toList s.toList).map String.mk

/-- JS `parts.join(sep)`. -/
def jsJoin (sep : String) : List String → String
  | [] => ""
  | [x] => x
  | x :: y :: rest => x ++ sep ++ jsJoin sep (y :: rest)

/-- UTF-16-code-unit comparison of JS strings, `a < b`
(code-point comparison; identical for BMP strings). -/
def charsLt : List Char → List Char → Bool
  | [], [] => false
  | [], _ :: _ => true
  | _ :: _, [] => false
  | a :: as, b :: bs =>
    if a.toNat < b.toNat then true
    else if b.toNat < a.toNat then false
    else charsLt as bs

/-- `a ≤ b` on JS strings, as a Bool comparator for sorting. -/
def strLeB (a b : String) : Bool :=
  !(charsLt b.toList a.toList)

/-- Stable insertion: place `x` before the first element not strictly below
it, so that elements with equal sort keys keep their original order. -/
def insertStable (lt : α → α → Bool) (x : α) : List α → List α
  | [] => [x]
  | y :: ys => if lt y x then y :: insertStable lt x ys else x :: y :: ys

/-- A stable ascending sort (the observable behaviour of lodash `sortBy`). -/
def stableSortBy (lt : α → α → Bool) : List α → List α
  | [] => []
  | x :: xs => insertStable lt x (stableSortBy lt xs)

end JSModel

namespace SHA1

/-- UTF-8 encoding of one character (what `crypto-js` does to string input). -/
def encodeChar (c : Char) : List Nat :=
  let n := c.toNat
  if n < 128 then [n]
  else if n < 2048 then [192 + n / 64, 128 + n % 64]
  else if n < 65536 then [224 + n / 4096, 128 + n / 64 % 64, 128 + n % 64]
  else [240 + n / 262144, 128 + n / 4096 % 64, 128 + n / 64 % 64, 128 + n % 64]

/-- UTF-8 bytes of a string. -/
def utf8Bytes (s : String) : List Nat :=
  s.toList.flatMap encodeChar

/-- Rotate a 32-bit word left by `k`. -/
def rotl32 (n k : Nat) : Nat :=
  ((n <<< k) ||| (n >>> (32 - k))) % 4294967296

/-- 8-byte big-endian encoding of the bit length. -/
def lenBytes (n : Nat) : List Nat :=
  [n >>> 56 % 256, n >>> 48 % 256, n >>> 40 % 256, n >>> 32 % 256,
   n >>> 24 % 256, n >>> 16 % 256, n >>> 8 % 256, n % 256]

/-- SHA-1 padding: `0x80`, zeros to 56 mod 64, then the 64-bit bit length. -/
def pad (msg : List Nat) : List Nat :=
  let padZeros := (119 - msg.length % 64) % 64
  msg ++ [128] ++ List.replicate padZeros 0 ++ lenBytes (msg.length * 8)

/-- Group bytes into big-endian 32-bit words. -/
def bytesToWords : List Nat → List Nat
  | a :: b :: c :: d :: rest => (((a * 256 + b) * 256 + c) * 256 + d) :: bytesToWords rest
  | _ => []

/-- Split a list into 64-byte blocks (fuel-driven structural recursion). -/
def toBlocksAux : Nat → List Nat → List (List Nat)
  | 0, _ => []
  | _, [] => []
  | fuel + 1, a :: l => ((a :: l).take 64) :: toBlocksAux fuel ((a :: l).drop 64)

/-- Split a list into 64-byte blocks. -/
def toBlocks (l : List Nat) : List (List Nat) :=
  toBlocksAux l.length l

/-- The 80-entry message schedule of one block. -/
def schedule (ws : List Nat) : Array Nat :=
  (List.range 80).foldl
    (fun arr t =>
      if t < 16 then arr.push (ws.getD t 0)
      else arr.push (rotl32 ((arr.getD (t - 3) 0) ^^^ (arr.getD (t - 8) 0) ^^^
        (arr.getD (t - 14) 0) ^^^ (arr.getD (t - 16) 0)) 1))
    #[]

/-- The SHA-1 round function. -/
def roundF (t b c d : Nat) : Nat :=
  if t < 20 then (b &&& c) ||| ((b ^^^ 4294967295) &&& d)
  else if t < 40 then b ^^^ c ^^^ d
  else if t < 60 then (b &&& c) ||| (b &&& d) ||| (c &&& d)
  else b ^^^ c ^^^ d

/-- The SHA-1 round constants. -/
def roundK (t : Nat) : Nat :=
  if t < 20 then 1518500249
  else if t < 40 then 1859775393
  else if t < 60 then 2400959708
  else 3395469782

/-- The running state: five 32-bit words. -/
structure Hv where
  a : Nat
  b : Nat
  c : Nat
  d : Nat
  e : Nat
deriving DecidableEq

/-- Process one 64-byte block. -/
def processBlock (h : Hv) (block : List Nat) : Hv :=
  let w := schedule (bytesToWords block)
  let f := (List.range 80).foldl
    (fun s t =>
      { a := (rotl32 s.a 5 + roundF t s.b s.c s.d + s.e + roundK t + w.getD t 0) % 4294967296,
        b := s.a, c := rotl32 s.b 30, d := s.c, e := s.d })
    h
  { a := (h.a + f.a) % 4294967296, b := (h.b + f.b) % 4294967296,
    c := (h.c + f.c) % 4294967296, d := (h.d + f.d) % 4294967296,
    e := (h.e + f.e) % 4294967296 }

/-- Initial SHA-1 state. -/
def initHv : Hv :=
  { a := 1732584193, b := 4023233417, c := 2562383102, d := 271733878, e := 3285377520 }

/-- One lowercase hex digit: `0`–`9` then `a`–`f`. -/
def hexDigit (n : Nat) : Char :=
  if n < 10 then Char.ofNat (48 + n) else Char.ofNat (87 + n)

/-- Lowercase hex of a 32-bit word. -/
def wordToHex (n : Nat) : List Char :=
  (List.range 8).map (fun i => hexDigit (n >>> ((7 - i) * 4) % 16))

/-- SHA-1 of the UTF-8 bytes of a string, as a lowercase hex string —
the observable behaviour of `crypto-js` `SHA1(s).toString()`. -/
def sha1Hex (s : String) : String :=
  let hv := (toBlocks (pad (utf8Bytes s))).foldl processBlock initHv
  String.mk (wordToHex hv.a ++ wordToHex hv.b ++ wordToHex hv.c ++
    wordToHex hv.d ++ wordToHex hv.e)

end SHA1

namespace PathUtils

open JSModel SHA1

/-- The value of the `useQueryParamsInCacheKey` option: JS `true`/`false`, or
an array of parameter names (`_.isArray` is tested first in the source). -/
inductive QueryPolicy where
  | flag (b : Bool)
  | names (l : List String)
deriving DecidableEq

/-- `defaultImageTypes` from pathUtils.js. -/
def defaultImageTypes : List String :=
  ["png", "jpeg", "jpg", "gif", "bmp", "tiff", "tif"]

/-- The formula marker constant `formulaFlag` in `generateCacheKey`. -/
def formulaFlag : String := "cgi-bin/math.cgi?"

/-- Split a string at the first occurrence of `sep`:
the part before, and (if `sep` occurs) the part after. -/
def splitFirst (s sep : String) : String × Option String :=
  match jsSplitOn s sep with
  | [] => (s, none)
  | x :: rest => (x, if rest.isEmpty then none else some (jsJoin sep rest))

/-- A parsed URL: the fields of `new URL(url, null, true)` (`url-parse` with
query parsing) that pathUtils reads. Modelled for plain `http(s)` URLs
without userinfo, port, fragment or percent-escapes — the URL family this
cache handles. -/
structure ParsedUrl where
  protocol : String
  host : String
  pathname : String
  query : List (String × String)
deriving DecidableEq

/-- Parse a query string into key/value pairs. Mirrors `querystringify.parse`:
split on `&`, split each part at the first `=` (missing value becomes `""`),
drop empty keys, and keep the first occurrence of a duplicated key. -/
def dedupKeys : List (String × String) → List (String × String)
  | [] => []
  | p :: rest => p :: (dedupKeys rest).filter (fun q => q.1 != p.1)

/-- Parse the text after `?` into the query object. -/
def parseQuery (s : String) : List (String × String) :=
  if s = "" then []
  else dedupKeys ((jsSplitOn s "&").filterMap (fun part =>
    if part = "" then none
    else
      let kv := splitFirst part "="
      if kv.1 = "" then none else some (kv.1, kv.2.getD "")))

/-- `new URL(url, null, true)` for the URL family in scope: split off the
scheme at `://`, the host at the first `/`, and the query at the first `?`. -/
def parseUrl (s : String) : ParsedUrl :=
  let sp := splitFirst s "://"
  let rest := sp.2.getD ""
  match splitFirst rest "/" with
  | (beforeSlash, some after) =>
    let pq := splitFirst ("/" ++ after) "?"
    { protocol := jsToLower sp.1 ++ ":", host := jsToLower beforeSlash,
      pathname := pq.1, query := parseQuery (pq.2.getD "") }
  | (beforeSlash, none) =>
    let hq := splitFirst beforeSlash "?"
    { protocol := jsToLower sp.1 ++ ":", host := jsToLower hq.1,
      pathname := "", query := parseQuery (hq.2.getD "") }

/-- The ascending comparator `sortBy(a => a[0])` sorts with: strict
comparison of keys. -/
def keyLt (a b : String × String) : Bool :=
  charsLt a.1.toList b.1.toList

/-- `serializeObjectKeys` from pathUtils.js: the object's values, sorted by
key name (lodash `_(obj).toPairs().sortBy(a => a[0]).map(a => a[1])`). -/
def serializeObjectKeys (obj : List (String × String)) : List String :=
  (stableSortBy keyLt obj).map (fun a => a.2)

/-- JS coercion of an array of strings when concatenated onto a string:
`Array.prototype.toString`, i.e. `join(",")`. -/
def jsArrayToString (l : List String) : String :=
  jsJoin "," l

/-- lodash `_.pick(obj, names)`: the entries of `obj` whose key is in
`names`, in the order of `names`. -/
def jsPick (obj : List (String × String)) (names : List String) : List (String × String) :=
  names.filterMap (fun k => (obj.find? (fun p => p.1 == k)).map (fun p => (k, p.2)))

/-- `getQueryForCacheKey` from pathUtils.js, composed with the JS coercion to
string that happens when the result is concatenated in `generateCacheKey`
(an array coerces via `join(",")`; the `''` branch is already a string). -/
def getQueryForCacheKey (url : ParsedUrl) (useQueryParamsInCacheKey : QueryPolicy) : String :=
  match useQueryParamsInCacheKey with
  | .names l => jsArrayToString (serializeObjectKeys (jsPick url.query l))
  | .flag true => jsArrayToString (serializeObjectKeys url.query)
  | .flag false => ""

/-- `generateCacheKey` from pathUtils.js. The source's default argument
`useQueryParamsInCacheKey = true` is passed explicitly as `.flag true`. -/
def generateCacheKey (url : String) (useQueryParamsInCacheKey : QueryPolicy) : String :=
  let parsedUrl := parseUrl url
  let pathParts := jsSplitOn parsedUrl.pathname "/"
  let fileName := (pathParts.getLast?).getD ""
  let filePath := jsJoin "/" pathParts.dropLast
  let parts := jsSplitOn fileName "."
  let fileType := if parts.length > 1 then jsToLower ((parts.getLast?).getD "") else ""
  let ty := if defaultImageTypes.contains fileType then fileType else "jpg"
  if jsIncludes url formulaFlag then
    let formulaParams := jsSubstringFrom url ((jsIndexOf url formulaFlag).getD 0)
    let n := formulaParams.toList.length
    let mergeHashCode :=
      hashCode (jsSubstring formulaParams 0 (n / 2)) +
      hashCode (jsSubstringFrom formulaParams (n / 2))
    sha1Hex (filePath ++ fileName ++ ty ++ jsIntToString mergeHashCode) ++ "." ++ ty
  else
    sha1Hex (filePath ++ fileName ++ ty ++
      getQueryForCacheKey parsedUrl useQueryParamsInCacheKey) ++ "." ++ ty

/-- Host sanitization in `getHostCachePathComponent`:
`host.replace(/\.:/gi, '_').replace(/[^a-z0-9_]/gi, '_').toLowerCase()`. -/
def sanitizeHost (host : String) : String :=
  jsToLower (String.mk ((jsJoin "_" (jsSplitOn host ".:")).toList.map
    (fun c =>
      if (65 ≤ c.toNat ∧ c.toNat ≤ 90) ∨ (97 ≤ c.toNat ∧ c.toNat ≤ 122) ∨
          (48 ≤ c.toNat ∧ c.toNat ≤ 57) ∨ c = '_'
      then c else '_')))

/-- `getHostCachePathComponent` from pathUtils.js. -/
def getHostCachePathComponent (url : String) : String :=
  let host := (parseUrl url).host
  sanitizeHost host ++ "_" ++ sha1Hex host

/-- `getImageFilePath` from pathUtils.js. -/
def getImageFilePath (url cacheLocation : String) : String :=
  cacheLocation ++ "/" ++ getHostCachePathComponent url ++ "/" ++
    generateCacheKey url (.flag true)

/-- `getImageRelativeFilePath` from pathUtils.js. -/
def getImageRelativeFilePath (url : String) : String :=
  getHostCachePathComponent url ++ "/" ++ generateCacheKey url (.flag true)

/-- Render a query object back to a string (`querystringify.stringify` with
the `?` prefix `url-parse` uses in `toString`). -/
def renderQuery : List (String × String) → String
  | [] => ""
  | q => "?" ++ jsJoin "&" (q.map (fun p => p.1 ++ "=" ++ p.2))

/-- `url-parse`'s `toString` for the URL family in scope. -/
def renderUrl (u : ParsedUrl) : String :=
  u.protocol ++ "//" ++ u.host ++ u.pathname ++ renderQuery u.query

/-- `getCacheableUrl` from pathUtils.js: re-serialize with only the selected
query parameters. -/
def getCacheableUrl (url : String) (useQueryParamsInCacheKey : QueryPolicy) : String :=
  let parsedUrl := parseUrl url
  match useQueryParamsInCacheKey with
  | .names l => renderUrl { parsedUrl with query := jsPick parsedUrl.query l }
  | .flag false => renderUrl { parsedUrl with query := [] }
  | .flag true => renderUrl parsedUrl

end PathUtils

namespace CacheManager

open JSModel PathUtils

/-- A JS value passed as the `url` argument of a public operation: the
string case, plus the non-string inputs the spec calls out (`42`, `null`). -/
inductive JSVal where
  | str (s : String)
  | num (n : Int)
  | null
deriving DecidableEq

/-- Request headers (the `headers` option). -/
def Headers := List (String × String)
deriving DecidableEq

/-- A fully-populated options object (every recognized key present), as the
module-level `defaultOptions` is after `_.defaults(defaultOptions,
defaultDefaultOptions)` ran at construction. -/
structure Options where
  headers : Headers
  ttl : Nat
  useQueryParamsInCacheKey : QueryPolicy
  cacheLocation : String
  allowSelfSignedSSL : Bool
deriving DecidableEq

/-- A caller-supplied options object: any subset of the recognized keys may
be present. -/
structure OptionsObj where
  headers : Option Headers := none
  ttl : Option Nat := none
  useQueryParamsInCacheKey : Option QueryPolicy := none
  cacheLocation : Option String := none
  allowSelfSignedSSL : Option Bool := none
deriving DecidableEq

/-- The options object with no keys (`{}`, the default argument of every
public operation). -/
def OptionsObj.empty : OptionsObj := {}

/-- View a fully-populated options object as a JS object (every key
present). -/
def toObj (d : Options) : OptionsObj :=
  { headers := some d.headers, ttl := some d.ttl,
    useQueryParamsInCacheKey := some d.useQueryParamsInCacheKey,
    cacheLocation := some d.cacheLocation,
    allowSelfSignedSSL := some d.allowSelfSignedSSL }

/-- The value held by lodash `_.defaults(options, defaults)`'s first argument
after the call: each key of `options` kept, each missing key filled from
`defaults`. (lodash mutates `options` in place to this value and returns it;
the `defaults` source object is only read.) -/
def lodashDefaultsObj (options : OptionsObj) (defaults : OptionsObj) : OptionsObj :=
  { headers := options.headers <|> defaults.headers,
    ttl := options.ttl <|> defaults.ttl,
    useQueryParamsInCacheKey :=
      options.useQueryParamsInCacheKey <|> defaults.useQueryParamsInCacheKey,
    cacheLocation := options.cacheLocation <|> defaults.cacheLocation,
    allowSelfSignedSSL := options.allowSelfSignedSSL <|> defaults.allowSelfSignedSSL }

/-- The merged options used by a call, when the defaults are fully
populated: caller-supplied values take precedence. -/
def mergeOptions (options : OptionsObj) (defaults : Options) : Options :=
  { headers := options.headers.getD defaults.headers,
    ttl := options.ttl.getD defaults.ttl,
    useQueryParamsInCacheKey :=
      options.useQueryParamsInCacheKey.getD defaults.useQueryParamsInCacheKey,
    cacheLocation := options.cacheLocation.getD defaults.cacheLocation,
    allowSelfSignedSSL := options.allowSelfSignedSSL.getD defaults.allowSelfSignedSSL }

/-- `defaultDefaultOptions` from the source (`ttl` is 14 days in seconds;
`cacheLocation` comes from the `fs.getCacheDir()` collaborator, passed in
here as `cacheDir`). -/
def defaultDefaultOptions (cacheDir : String) : Options :=
  { headers := [], ttl := 60 * 60 * 24 * 14, useQueryParamsInCacheKey := .flag false,
    cacheLocation := cacheDir, allowSelfSignedSSL := false }

/-- The module-level `defaultOptions` after construction:
`_.defaults(defaultOptions, defaultDefaultOptions)`. -/
def moduleDefaults (userDefaults : OptionsObj) (cacheDir : String) : Options :=
  mergeOptions userDefaults (defaultDefaultOptions cacheDir)

/-- Failures a public operation can reject with: the synchronous
`new Error("Url is not cacheable")`, or a failure propagated from the
caller-supplied materialize step (download / copy). -/
inductive Err where
  | notCacheable
  | materializeFailed (msg : String)
deriving DecidableEq

/-- The world the orchestrator acts on: the TTL record store (`urlCache`,
canonical URL ↦ relative path and TTL) and the set of existing files
(`fs`). Expired entries are the store's own business: it reports them as
absent, so an expired record is modelled as a missing one. -/
structure World where
  store : List (String × String × Nat)
  files : List String
deriving DecidableEq

/-- `urlCache.get`: the relative path recorded for a key, if any. -/
def storeGet (w : World) (k : String) : Option String :=
  (w.store.find? (fun e => e.1 == k)).map (fun e => e.2.1)

/-- `urlCache.set`: record `k ↦ (rel, ttl)`, replacing any previous entry. -/
def storeSet (w : World) (k rel : String) (ttl : Nat) : World :=
  { w with store := (k, rel, ttl) :: w.store.filter (fun e => e.1 != k) }

/-- `urlCache.remove`. -/
def storeRemove (w : World) (k : String) : World :=
  { w with store := w.store.filter (fun e => e.1 != k) }

/-- `fs.exists`. -/
def fileExists (w : World) (p : String) : Bool :=
  w.files.contains p

/-- `fs.deleteFile` (idempotent: absence is not an error). -/
def deleteFile (w : World) (p : String) : World :=
  { w with files := w.files.filter (fun q => q != p) }

/-- Creation of a file at a path (what a successful download/copy does). -/
def createFile (w : World) (p : String) : World :=
  { w with files := p :: w.files }

/-- The caller-supplied `getCachedFile` step of `cacheUrl`: acts on the
world at a target path and either succeeds or fails. -/
def Materializer := World → String → World × Option Err

/-- A materializer that, when it succeeds, has produced the file at the
requested path (the contract of `fs.downloadFile` / `fs.copyFile`). -/
def ProducesFile (m : Materializer) : Prop :=
  ∀ w p, (m w p).2 = none → fileExists (m w p).1 p = true

/-- A materializer that never touches the record store (downloads and
copies act on the filesystem only). -/
def PreservesStore (m : Materializer) : Prop :=
  ∀ w p, ((m w p).1).store = w.store

/-- `_.startsWith` on JS strings. -/
def jsStartsWith (s pre : String) : Bool :=
  pre.toList.isPrefixOf s.toList

/-- `isCacheable` on an actual string. -/
def isCacheableStr (s : String) : Bool :=
  jsStartsWith (jsToLower s) "http://" || jsStartsWith (jsToLower s) "https://"

/-- `isCacheable` from the source: `_.isString(url)` and a scheme check. -/
def isCacheable (url : JSVal) : Bool :=
  match url with
  | .str s => isCacheableStr s
  | _ => false

/-- The `.catch` branch of `cacheUrl` (the miss path): derive the relative
path from the URL, delete any stale file, materialize, record, resolve.
The `Bool` result records that this branch ran (the `noCached` flag of
`isCachedURL`). -/
def cacheMiss (options : Options) (cacheableUrl : String) (getCachedFile : Materializer)
    (w : World) : World × Except Err (String × Bool) :=
  let fileRelativePath := getImageRelativeFilePath cacheableUrl
  let filePath := options.cacheLocation ++ "/" ++ fileRelativePath
  let w1 := deleteFile w filePath
  match getCachedFile w1 filePath with
  | (w2, some e) => (w2, .error e)
  | (w2, none) => (storeSet w2 cacheableUrl fileRelativePath options.ttl, .ok (filePath, true))

/-- `cacheUrl` from the source. The state threads through even on
rejection (side effects performed before a promise rejects persist). -/
def cacheUrl (defaults : Options) (url : JSVal) (options : OptionsObj)
    (getCachedFile : Materializer) (w : World) : World × Except Err (String × Bool) :=
  match url with
  | .str s =>
    if isCacheableStr s then
      let o := mergeOptions options defaults
      let cacheableUrl := getCacheableUrl s o.useQueryParamsInCacheKey
      match storeGet w cacheableUrl with
      | some fileRelativePath =>
        let cachedFilePath := o.cacheLocation ++ "/" ++ fileRelativePath
        if fileExists w cachedFilePath then (w, .ok (cachedFilePath, false))
        else cacheMiss o cacheableUrl getCachedFile w
      | none => cacheMiss o cacheableUrl getCachedFile w
    else (w, .error .notCacheable)
  | _ => (w, .error .notCacheable)

/-- `isCachedURL`: run `cacheUrl` with a materialize step that creates
nothing and only records that the miss branch ran; resolve with the
negated flag. -/
def isCachedURL (defaults : Options) (url : JSVal) (options : OptionsObj)
    (w : World) : World × Except Err Bool :=
  match cacheUrl defaults url options (fun w' _ => (w', none)) w with
  | (w', .ok (_, noCached)) => (w', .ok (!noCached))
  | (w', .error e) => (w', .error e)

/-- `isURLCacheable`. -/
def isURLCacheable (url : JSVal) : Bool :=
  isCacheable url

/-- `fs.downloadFile` as an abstract collaborator: url, destination path,
headers. -/
def DownloadFn := JSVal → String → Headers → World → World × Option Err

/-- `downloadAndCacheUrl`: materialize by downloading the raw URL to the
target path with the merged headers. -/
def downloadAndCacheUrl (defaults : Options) (downloadFile : DownloadFn)
    (url : JSVal) (options : OptionsObj) (w : World) : World × Except Err (String × Bool) :=
  let o := mergeOptions options defaults
  cacheUrl defaults url options (fun w' p => downloadFile url p o.headers w') w

/-- `fs.copyFile` as an abstract collaborator: source path, destination. -/
def CopyFn := String → String → World → World × Option Err

/-- `seedAndCacheUrl`: materialize by copying a local file into place. -/
def seedAndCacheUrl (defaults : Options) (copyFile : CopyFn) (url : JSVal)
    (seedPath : String) (options : OptionsObj) (w : World) : World × Except Err (String × Bool) :=
  cacheUrl defaults url options (fun w' p => copyFile seedPath p w') w

/-- `deleteUrl`: remove the record-store entry, then the file. -/
def deleteUrl (defaults : Options) (url : JSVal) (options : OptionsObj)
    (w : World) : World × Except Err Unit :=
  match url with
  | .str s =>
    if isCacheableStr s then
      let o := mergeOptions options defaults
      let cacheableUrl := getCacheableUrl s o.useQueryParamsInCacheKey
      let filePath := getImageFilePath cacheableUrl o.cacheLocation
      (deleteFile (storeRemove w cacheableUrl) filePath, .ok ())
    else (w, .error .notCacheable)
  | _ => (w, .error .notCacheable)

/-- The canonical (cacheable) URL a call computes for the string `s`. -/
def canonicalUrl (defaults : Options) (options : OptionsObj) (s : String) : String :=
  getCacheableUrl s (mergeOptions options defaults).useQueryParamsInCacheKey

/-- The absolute file path the miss branch derives for the string `s`. -/
def missFilePath (defaults : Options) (options : OptionsObj) (s : String) : String :=
  (mergeOptions options defaults).cacheLocation ++ "/" ++
    getImageRelativeFilePath (canonicalUrl defaults options s)

/-- Concrete defaults for concrete runs: the default configuration over the
cache directory `"dir"`. -/
def sampleDefaults : Options :=
  defaultDefaultOptions "dir"

/-- The empty world: no records, no files. -/
def emptyWorld : World :=
  { store := [], files := [] }

/-- A materializer that creates the requested file (a successful
download/copy). -/
def mCreate : Materializer :=
  fun w p => (createFile w p, none)

/-- A materializer that does nothing and succeeds. -/
def mNone : Materializer :=
  fun w _ => (w, none)

/-- A materializer that fails without touching the world. -/
def mFail : Materializer :=
  fun w _ => (w, some (.materializeFailed "network down"))

/-- A download collaborator that does nothing and succeeds. -/
def dlNone : DownloadFn :=
  fun _ _ _ w => (w, none)

/-- A copy collaborator that does nothing and succeeds. -/
def cpNone : CopyFn :=
  fun _ _ w => (w, none)

/-- A download collaborator that creates the destination file. -/
def dlCreate : DownloadFn :=
  fun _ p _ w => (createFile w p, none)

/-- The relative path the key deriver assigns to `"http://h/a.png"`. -/
def relA : String :=
  "h_27d5482eebd075de44389774fce28c69f45c8a75/f505bc0a275e19da1eeafe1752eca3a6e639023c.png"

/-- The absolute path of `"http://h/a.png"` under `sampleDefaults`. -/
def fpA : String :=
  "dir/h_27d5482eebd075de44389774fce28c69f45c8a75/f505bc0a275e19da1eeafe1752eca3a6e639023c.png"

/-- The world after `"http://h/a.png"` has been fetched and recorded. -/
def wA : World :=
  { store := [("http://h/a.png", relA, 1209600)], files := [fpA] }

/-- A world with a record for `"http://h/a.png"` but no backing file
(a dangling record). -/
def wDangling : World :=
  { store := [("http://h/a.png", relA, 1209600)], files := [] }

end CacheManager

set_option maxRecDepth 100000

/-- Sanity check of the SHA-1 embedding against the standard test vector. -/
theorem sha1Hex_abc : SHA1.sha1Hex "abc" = "a9993e364706816aba3e25717850c26c9cd0d89d" := by
  decide

/-- Sanity check: SHA-1 of the empty string. -/
theorem sha1Hex_empty : SHA1.sha1Hex "" = "da39a3ee5e6b4b0d3255bfef95601890afd80709" := by
  decide

namespace JSModel

theorem char_toNat_inj {a b : Char} (h : a.toNat = b.toNat) : a = b :=
  Char.eq_of_val_eq (UInt32.eq_of_toBitVec_eq (BitVec.eq_of_toNat_eq h))

theorem charsLt_asymm (a : List Char) : ∀ b, charsLt a b = true → charsLt b a = false := by
  induction a with
  | nil =>
    intro b h
    cases b with
    | nil => simp [charsLt] at h
    | cons y ys => simp [charsLt]
  | cons x xs ih =>
    intro b h
    cases b with
    | nil => simp [charsLt] at h
    | cons y ys =>
      simp only [charsLt] at h ⊢
      by_cases h1 : x.toNat < y.toNat
      · have h2 : ¬ y.toNat < x.toNat := by omega
        simp [h1, h2]
      · by_cases h2 : y.toNat < x.toNat
        · simp [h1, h2] at h
        · simp only [if_neg h1, if_neg h2] at h
          simp only [if_neg h2, if_neg h1]
          exact ih ys h

theorem charsLt_antisymm_eq (a : List Char) :
    ∀ b, charsLt a b = false → charsLt b a = false → a = b := by
  induction a with
  | nil =>
    intro b h1 _
    cases b with
    | nil => rfl
    | cons y ys => simp [charsLt] at h1
  | cons x xs ih =>
    intro b h1 h2
    cases b with
    | nil => simp [charsLt] at h2
    | cons y ys =>
      simp only [charsLt] at h1 h2
      by_cases hxy : x.toNat < y.toNat
      · simp [hxy] at h1
      · by_cases hyx : y.toNat < x.toNat
        · simp [hyx, hxy] at h2
        · have hx : x = y := char_toNat_inj (by omega)
          subst hx
          simp only [if_neg hxy, if_neg hyx] at h1 h2
          rw [ih ys h1 h2]

theorem charsLt_imp_of_not (a b : List Char) (h : charsLt a b = false) :
    charsLt b a = true ∨ a = b := by
  by_cases hba : charsLt b a = true
  · exact Or.inl hba
  · exact Or.inr (charsLt_antisymm_eq a b h (by revert hba; cases charsLt b a <;> simp))

theorem charsLt_trans (a : List Char) :
    ∀ b c, charsLt a b = true → charsLt b c = true → charsLt a c = true := by
  induction a with
  | nil =>
    intro b c h1 h2
    cases b with
    | nil => simp [charsLt] at h1
    | cons y ys =>
      cases c with
      | nil => simp [charsLt] at h2
      | cons z zs => simp [charsLt]
  | cons x xs ih =>
    intro b c h1 h2
    cases b with
    | nil => simp [charsLt] at h1
    | cons y ys =>
      cases c with
      | nil => simp [charsLt] at h2
      | cons z zs =>
        simp only [charsLt] at h1 h2 ⊢
        by_cases hxy : x.toNat < y.toNat
        · by_cases hyz : y.toNat < z.toNat
          · simp [show x.toNat < z.toNat by omega]
          · by_cases hzy : z.toNat < y.toNat
            · simp [hyz, hzy] at h2
            · have : y = z := char_toNat_inj (by omega)
              subst this
              simp [hxy]
        · by_cases hyx : y.toNat < x.toNat
          · simp [hxy, hyx] at h1
          · have hx : x = y := char_toNat_inj (by omega)
            subst hx
            simp only [if_neg hxy, if_neg hyx] at h1
            by_cases hxz : x.toNat < z.toNat
            · simp [hxz]
            · by_cases hzx : z.toNat < x.toNat
              · simp [hxz, hzx] at h2
              · have : x = z := char_toNat_inj (by omega)
                subst this
                simp only [if_neg hxz, if_neg hzx] at h2 ⊢
                exact ih ys zs h1 h2

theorem charsLt_not_lt_trans (a b c : List Char)
    (h1 : charsLt b a = false) (h2 : charsLt c b = false) : charsLt c a = false := by
  by_cases hca : charsLt c a = true
  · rcases charsLt_imp_of_not c b h2 with hbc | hcb
    · have hba : charsLt b a = true := charsLt_trans b c a hbc hca
      rw [h1] at hba
      exact absurd hba (by simp)
    · rw [hcb] at hca
      rw [h1] at hca
      exact absurd hca (by simp)
  · revert hca
    cases charsLt c a <;> simp

theorem insertStable_perm {α : Type} (lt : α → α → Bool) (x : α) (l : List α) :
    (insertStable lt x l).Perm (x :: l) := by
  induction l with
  | nil => exact List.Perm.refl _
  | cons y ys ih =>
    simp only [insertStable]
    by_cases h : lt y x = true
    · rw [if_pos h]
      exact (ih.cons y).trans (List.Perm.swap x y ys)
    · rw [if_neg h]

theorem stableSortBy_perm {α : Type} (lt : α → α → Bool) (l : List α) :
    (stableSortBy lt l).Perm l := by
  induction l with
  | nil => exact List.Perm.refl _
  | cons x xs ih => exact (insertStable_perm lt x _).trans (ih.cons x)

end JSModel

namespace PathUtils

open JSModel

theorem keyLt_asymm (a b : String × String) (h : keyLt a b = true) : keyLt b a = false :=
  charsLt_asymm a.1.toList b.1.toList h

theorem keyLt_not_lt_trans (a b c : String × String)
    (h1 : keyLt b a = false) (h2 : keyLt c b = false) : keyLt c a = false :=
  charsLt_not_lt_trans a.1.toList b.1.toList c.1.toList h1 h2

theorem insertStable_keyLt_sorted (x : String × String) (l : List (String × String))
    (hl : l.Pairwise (fun a b => keyLt b a = false)) :
    (insertStable keyLt x l).Pairwise (fun a b => keyLt b a = false) := by
  induction l with
  | nil => simp [insertStable]
  | cons y ys ih =>
    rcases List.pairwise_cons.mp hl with ⟨hy, hys⟩
    simp only [insertStable]
    by_cases h : keyLt y x = true
    · rw [if_pos h]
      refine List.pairwise_cons.mpr ⟨?_, ih hys⟩
      intro z hz
      have hz' : z = x ∨ z ∈ ys := by
        have := (insertStable_perm keyLt x ys).mem_iff.mp hz
        simpa using this
      rcases hz' with rfl | hz'
      · exact keyLt_asymm y z h
      · exact hy z hz'
    · rw [if_neg h]
      have hyx : keyLt y x = false := by
        revert h
        cases keyLt y x <;> simp
      refine List.pairwise_cons.mpr ⟨?_, hl⟩
      intro z hz
      rcases List.mem_cons.mp hz with rfl | hz'
      · exact hyx
      · exact keyLt_not_lt_trans x y z hyx (hy z hz')

theorem stableSortBy_keyLt_sorted (l : List (String × String)) :
    (stableSortBy keyLt l).Pairwise (fun a b => keyLt b a = false) := by
  induction l with
  | nil => simp [stableSortBy]
  | cons x xs ih => exact insertStable_keyLt_sorted x _ ih

theorem sorted_perm_nodup_keys_eq : ∀ (l1 l2 : List (String × String)), l1.Perm l2 →
    l1.Pairwise (fun a b => keyLt b a = false) →
    l2.Pairwise (fun a b => keyLt b a = false) →
    (l1.map Prod.fst).Nodup → l1 = l2 := by
  intro l1
  induction l1 with
  | nil =>
    intro l2 hp _ _ _
    exact (hp.symm.eq_nil).symm
  | cons a t1 ih =>
    intro l2 hp hs1 hs2 hnd
    cases l2 with
    | nil => exact absurd hp.eq_nil (by simp)
    | cons b t2 =>
      by_cases hab : a = b
      · subst hab
        rw [ih t2 hp.cons_inv hs1.of_cons hs2.of_cons
          (by rw [List.map_cons, List.nodup_cons] at hnd; exact hnd.2)]
      · exfalso
        have ha2 : a ∈ t2 := by
          rcases List.mem_cons.mp (hp.mem_iff.mp (List.mem_cons_self a t1)) with h | h
          · exact absurd h hab
          · exact h
        have hb1 : b ∈ t1 := by
          rcases List.mem_cons.mp (hp.mem_iff.mpr (List.mem_cons_self b t2)) with h | h
          · exact absurd h.symm hab
          · exact h
        have h1 : keyLt b a = false := (List.pairwise_cons.mp hs1).1 b hb1
        have h2 : keyLt a b = false := (List.pairwise_cons.mp hs2).1 a ha2
        have hkey : a.1 = b.1 :=
          String.ext (charsLt_antisymm_eq a.1.toList b.1.toList h2 h1)
        rw [List.map_cons, List.nodup_cons] at hnd
        exact hnd.1 (hkey ▸ List.mem_map_of_mem Prod.fst hb1)

theorem stableSortBy_keyLt_eq_of_perm (q1 q2 : List (String × String))
    (hp : q1.Perm q2) (hnd : (q1.map Prod.fst).Nodup) :
    stableSortBy keyLt q1 = stableSortBy keyLt q2 :=
  sorted_perm_nodup_keys_eq _ _
    ((stableSortBy_perm keyLt q1).trans (hp.trans (stableSortBy_perm keyLt q2).symm))
    (stableSortBy_keyLt_sorted q1) (stableSortBy_keyLt_sorted q2)
    (((stableSortBy_perm keyLt q1).map Prod.fst).symm.nodup hnd)

theorem serializeObjectKeys_eq_of_perm (q1 q2 : List (String × String))
    (hp : q1.Perm q2) (hnd : (q1.map Prod.fst).Nodup) :
    serializeObjectKeys q1 = serializeObjectKeys q2 := by
  simp only [serializeObjectKeys]
  rw [stableSortBy_keyLt_eq_of_perm q1 q2 hp hnd]

theorem find?_key_eq_of_perm (k : String) : ∀ (q1 q2 : List (String × String)), q1.Perm q2 →
    (q1.map Prod.fst).Nodup →
    q1.find? (fun p => p.1 == k) = q2.find? (fun p => p.1 == k) := by
  intro q1 q2 hp
  induction hp with
  | nil =>
    intro _
    rfl
  | cons x hp ih =>
    intro hnd
    by_cases hx : ((fun p : String × String => p.1 == k) x) = true
    · rw [@List.find?_cons_of_pos _ (fun p => p.1 == k) x _ hx,
        @List.find?_cons_of_pos _ (fun p => p.1 == k) x _ hx]
    · rw [@List.find?_cons_of_neg _ (fun p => p.1 == k) x _ hx,
        @List.find?_cons_of_neg _ (fun p => p.1 == k) x _ hx]
      exact ih (by rw [List.map_cons, List.nodup_cons] at hnd; exact hnd.2)
  | swap x y l =>
    intro hnd
    by_cases hy : ((fun p : String × String => p.1 == k) y) = true <;>
      by_cases hx : ((fun p : String × String => p.1 == k) x) = true
    · exfalso
      have hxk : x.1 = k := by simpa using hx
      have hyk : y.1 = k := by simpa using hy
      rw [List.map_cons, List.map_cons, List.nodup_cons] at hnd
      exact hnd.1 (by simp [hyk, hxk])
    · rw [@List.find?_cons_of_pos _ (fun p => p.1 == k) y _ hy,
        @List.find?_cons_of_neg _ (fun p => p.1 == k) x _ hx,
        @List.find?_cons_of_pos _ (fun p => p.1 == k) y _ hy]
    · rw [@List.find?_cons_of_neg _ (fun p => p.1 == k) y _ hy,
        @List.find?_cons_of_pos _ (fun p => p.1 == k) x _ hx,
        @List.find?_cons_of_pos _ (fun p => p.1 == k) x _ hx]
    · rw [@List.find?_cons_of_neg _ (fun p => p.1 == k) y _ hy,
        @List.find?_cons_of_neg _ (fun p => p.1 == k) x _ hx,
        @List.find?_cons_of_neg _ (fun p => p.1 == k) x _ hx,
        @List.find?_cons_of_neg _ (fun p => p.1 == k) y _ hy]
  | trans h1 _ ih1 ih2 =>
    intro hnd
    exact (ih1 hnd).trans (ih2 ((h1.map Prod.fst).nodup hnd))

theorem jsPick_eq_of_perm (q1 q2 : List (String × String)) (hp : q1.Perm q2)
    (hnd : (q1.map Prod.fst).Nodup) (names : List String) :
    jsPick q1 names = jsPick q2 names := by
  simp only [jsPick]
  have hf : (fun k => ((q1.find? (fun p => p.1 == k)).map (fun p => (k, p.2)))) =
      (fun k => ((q2.find? (fun p => p.1 == k)).map (fun p => (k, p.2)))) :=
    funext fun kk => by rw [find?_key_eq_of_perm kk q1 q2 hp hnd]
  rw [hf]

theorem getQueryForCacheKey_eq_of_perm (a b : ParsedUrl) (p : QueryPolicy)
    (hp : a.query.Perm b.query) (hnd : (a.query.map Prod.fst).Nodup) :
    getQueryForCacheKey a p = getQueryForCacheKey b p := by
  cases p with
  | names l =>
    simp only [getQueryForCacheKey]
    rw [jsPick_eq_of_perm a.query b.query hp hnd l]
  | flag bb =>
    cases bb with
    | true =>
      simp only [getQueryForCacheKey]
      rw [serializeObjectKeys_eq_of_perm a.query b.query hp hnd]
    | false => rfl

end PathUtils

/-- Sanity check of the URL parser on a plain URL with a query string. -/
theorem parseUrl_sample :
    PathUtils.parseUrl "http://h/a.png?b=2&a=1" =
      { protocol := "http:", host := "h", pathname := "/a.png",
        query := [("b", "2"), ("a", "1")] } := by
  decide

/-- C2: FALSIFIED as stated. For `"http://example.com/a/b/pic.PNG"` the
derived relative path is NOT host-bucket `example_com_<sha1("example.com")>`
followed by `<sha1("/a/b/pic.png")>.png`: the hash input concatenates the
directory part and the file name without a separator and does not lowercase
the file name, so the cache key is the SHA-1 of `"/a/bpic.PNGpng"`, not of
`"/a/b/pic.png"`. -/
theorem generateCacheKey_example_not_spec_hash :
    ¬ (PathUtils.getImageRelativeFilePath "http://example.com/a/b/pic.PNG" =
      "example_com_" ++ SHA1.sha1Hex "example.com" ++ "/" ++
        (SHA1.sha1Hex "/a/b/pic.png" ++ ".png")) := by
  decide

/-- C2 (amended): for `"http://example.com/a/b/pic.PNG"` the host bucket is
`example_com_<sha1("example.com")>` as claimed, and the cache key is the hex
SHA-1 of `"/a/bpic.PNGpng"` — directory `"/a/b"`, file name `"pic.PNG"`
(case preserved, no separator) and the lowercased allow-listed extension
`"png"` — suffixed with `".png"`. -/
theorem generateCacheKey_example_actual_hash :
    PathUtils.getImageRelativeFilePath "http://example.com/a/b/pic.PNG" =
      "example_com_" ++ SHA1.sha1Hex "example.com" ++ "/" ++
        (SHA1.sha1Hex "/a/bpic.PNGpng" ++ ".png") := by
  decide

/-- C6: the two formula URLs `"http://h/cgi-bin/math.cgi?x=1"` and
`"...x=2"` both contain the formula marker, their marker suffixes have
different half-substring `hashCode` sums, and `generateCacheKey` gives them
distinct cache keys; the derivation is deterministic (a pure function of
the URL and policy). -/
theorem generateCacheKey_formula_distinct :
    JSModel.jsIncludes "http://h/cgi-bin/math.cgi?x=1" PathUtils.formulaFlag = true ∧
    JSModel.jsIncludes "http://h/cgi-bin/math.cgi?x=2" PathUtils.formulaFlag = true ∧
    JSModel.hashCode "cgi-bin/ma" + JSModel.hashCode "th.cgi?x=1" ≠
      JSModel.hashCode "cgi-bin/ma" + JSModel.hashCode "th.cgi?x=2" ∧
    PathUtils.generateCacheKey "http://h/cgi-bin/math.cgi?x=1" (.flag true) ≠
      PathUtils.generateCacheKey "http://h/cgi-bin/math.cgi?x=2" (.flag true) ∧
    ∀ p : PathUtils.QueryPolicy,
      PathUtils.generateCacheKey "http://h/cgi-bin/math.cgi?x=1" p =
        PathUtils.generateCacheKey "http://h/cgi-bin/math.cgi?x=1" p := by
  refine ⟨by decide, by decide, by decide, by decide, fun p => rfl⟩

/-- C7: for non-formula URLs that parse to the same host and pathname and
to queries that are permutations of each other (with pairwise-distinct
parameter names), `generateCacheKey` agrees for every query-inclusion
policy, and the derived relative path agrees — query serialization sorts
parameters by key name before concatenating values. -/
theorem deriveRelativePath_query_order_insensitive (u1 u2 : String) (p : PathUtils.QueryPolicy)
    (hf1 : JSModel.jsIncludes u1 PathUtils.formulaFlag = false)
    (hf2 : JSModel.jsIncludes u2 PathUtils.formulaFlag = false)
    (hhost : (PathUtils.parseUrl u1).host = (PathUtils.parseUrl u2).host)
    (hpath : (PathUtils.parseUrl u1).pathname = (PathUtils.parseUrl u2).pathname)
    (hq : (PathUtils.parseUrl u1).query.Perm (PathUtils.parseUrl u2).query)
    (hnd : ((PathUtils.parseUrl u1).query.map Prod.fst).Nodup) :
    PathUtils.generateCacheKey u1 p = PathUtils.generateCacheKey u2 p ∧
    PathUtils.getImageRelativeFilePath u1 = PathUtils.getImageRelativeFilePath u2 := by
  have hkey : ∀ pp : PathUtils.QueryPolicy,
      PathUtils.generateCacheKey u1 pp = PathUtils.generateCacheKey u2 pp := by
    intro pp
    simp only [PathUtils.generateCacheKey, hf1, hf2, Bool.false_eq_true, if_false]
    rw [hpath, PathUtils.getQueryForCacheKey_eq_of_perm _ _ pp hq hnd]
  refine ⟨hkey p, ?_⟩
  simp only [PathUtils.getImageRelativeFilePath, PathUtils.getHostCachePathComponent]
  rw [hhost, hkey (.flag true)]

/-- C7 witness: `"http://h/a.png?b=2&a=1"` and `"http://h/a.png?a=1&b=2"`
derive the same relative path. -/
theorem deriveRelativePath_query_order_insensitive_witness :
    PathUtils.generateCacheKey "http://h/a.png?b=2&a=1" (.flag true) =
      PathUtils.generateCacheKey "http://h/a.png?a=1&b=2" (.flag true) ∧
    PathUtils.getImageRelativeFilePath "http://h/a.png?b=2&a=1" =
      PathUtils.getImageRelativeFilePath "http://h/a.png?a=1&b=2" :=
  deriveRelativePath_query_order_insensitive "http://h/a.png?b=2&a=1"
    "http://h/a.png?a=1&b=2" (.flag true) (by decide) (by decide) (by decide)
    (by decide) (by decide) (by decide)

/-- C10: query serialization keeps only the values (in key-sorted order)
and drops the parameter names: `"http://h/p.png?a=1&b=2"` and
`"http://h/p.png?a=1&c=2"` are distinct URLs with distinct query
dictionaries, yet serialize identically and get the same cache key. -/
theorem generateCacheKey_drops_query_names :
    "http://h/p.png?a=1&b=2" ≠ "http://h/p.png?a=1&c=2" ∧
    (PathUtils.parseUrl "http://h/p.png?a=1&b=2").query ≠
      (PathUtils.parseUrl "http://h/p.png?a=1&c=2").query ∧
    PathUtils.serializeObjectKeys (PathUtils.parseUrl "http://h/p.png?a=1&b=2").query =
      PathUtils.serializeObjectKeys (PathUtils.parseUrl "http://h/p.png?a=1&c=2").query ∧
    PathUtils.generateCacheKey "http://h/p.png?a=1&b=2" (.flag true) =
      PathUtils.generateCacheKey "http://h/p.png?a=1&c=2" (.flag true) := by
  refine ⟨by decide, by decide, by decide, by decide⟩

/-- C9: FALSIFIED as stated. The merge is lodash
`_.defaults(options, defaultOptions)`, which mutates the caller-supplied
`options` object in place: after merging the empty options object against
the default configuration, the caller's object is no longer empty. -/
theorem options_merge_mutates_caller :
    CacheManager.lodashDefaultsObj CacheManager.OptionsObj.empty
        (CacheManager.toObj (CacheManager.defaultDefaultOptions "dir")) ≠
      CacheManager.OptionsObj.empty := by
  decide

/-- C9 (amended): during a call the defaults object is only a read-only
merge source, and caller-supplied values take precedence — but the merge is
layered onto the caller-supplied options object itself (lodash `_.defaults`
mutates its first argument to the fully-merged object), not onto a copy:
after the call the caller's object holds every merged key. -/
theorem options_merge_semantics :
    (∀ (o : CacheManager.OptionsObj) (d : CacheManager.Options),
      CacheManager.lodashDefaultsObj o (CacheManager.toObj d) =
        CacheManager.toObj (CacheManager.mergeOptions o d)) ∧
    (∀ d : CacheManager.Options,
      CacheManager.mergeOptions CacheManager.OptionsObj.empty d = d) ∧
    (∀ f d : CacheManager.Options,
      CacheManager.mergeOptions (CacheManager.toObj f) d = f) := by
  refine ⟨?_, ?_, ?_⟩
  · intro o d
    obtain ⟨h, t, q, c, a⟩ := o
    cases h <;> cases t <;> cases q <;> cases c <;> cases a <;> rfl
  · intro d
    rfl
  · intro f d
    rfl

namespace CacheManager

open JSModel PathUtils

theorem storeGet_storeSet_self (w : World) (k rel : String) (ttl : Nat) :
    storeGet (storeSet w k rel ttl) k = some rel := by
  simp [storeGet, storeSet]

theorem fileExists_storeSet (w : World) (k rel : String) (ttl : Nat) (p : String) :
    fileExists (storeSet w k rel ttl) p = fileExists w p :=
  rfl

theorem store_deleteFile (w : World) (p : String) :
    (deleteFile w p).store = w.store :=
  rfl

theorem fileExists_deleteFile_self (w : World) (p : String) :
    fileExists (deleteFile w p) p = false := by
  simp [fileExists, deleteFile]

theorem cacheUrl_str (defaults : Options) (s : String) (opts : OptionsObj)
    (m : Materializer) (w : World) (hcs : isCacheableStr s = true) :
    cacheUrl defaults (.str s) opts m w =
      match storeGet w (canonicalUrl defaults opts s) with
      | some r =>
        if fileExists w ((mergeOptions opts defaults).cacheLocation ++ "/" ++ r)
        then (w, .ok ((mergeOptions opts defaults).cacheLocation ++ "/" ++ r, false))
        else cacheMiss (mergeOptions opts defaults) (canonicalUrl defaults opts s) m w
      | none => cacheMiss (mergeOptions opts defaults) (canonicalUrl defaults opts s) m w := by
  simp only [cacheUrl, canonicalUrl, hcs, if_true]

theorem cacheUrl_hit (defaults : Options) (s : String) (opts : OptionsObj)
    (m : Materializer) (w : World) (r : String) (hcs : isCacheableStr s = true)
    (hsg : storeGet w (canonicalUrl defaults opts s) = some r)
    (hfe : fileExists w ((mergeOptions opts defaults).cacheLocation ++ "/" ++ r) = true) :
    cacheUrl defaults (.str s) opts m w =
      (w, .ok ((mergeOptions opts defaults).cacheLocation ++ "/" ++ r, false)) := by
  rw [cacheUrl_str defaults s opts m w hcs, hsg]
  simp [hfe]

theorem cacheUrl_miss (defaults : Options) (s : String) (opts : OptionsObj)
    (m : Materializer) (w : World) (hcs : isCacheableStr s = true)
    (hmiss : storeGet w (canonicalUrl defaults opts s) = none ∨
      ∃ r, storeGet w (canonicalUrl defaults opts s) = some r ∧
        fileExists w ((mergeOptions opts defaults).cacheLocation ++ "/" ++ r) = false) :
    cacheUrl defaults (.str s) opts m w =
      cacheMiss (mergeOptions opts defaults) (canonicalUrl defaults opts s) m w := by
  rw [cacheUrl_str defaults s opts m w hcs]
  rcases hmiss with hsg | ⟨r, hsg, hfe⟩
  · rw [hsg]
  · rw [hsg]
    simp [hfe]

theorem cacheMiss_of_ok (o : Options) (cu : String) (m : Materializer) (w : World)
    (hok : (m (deleteFile w (o.cacheLocation ++ "/" ++ getImageRelativeFilePath cu))
      (o.cacheLocation ++ "/" ++ getImageRelativeFilePath cu)).2 = none) :
    cacheMiss o cu m w =
      (storeSet (m (deleteFile w (o.cacheLocation ++ "/" ++ getImageRelativeFilePath cu))
          (o.cacheLocation ++ "/" ++ getImageRelativeFilePath cu)).1
        cu (getImageRelativeFilePath cu) o.ttl,
       .ok (o.cacheLocation ++ "/" ++ getImageRelativeFilePath cu, true)) := by
  simp only [cacheMiss]
  cases hm : m (deleteFile w (o.cacheLocation ++ "/" ++ getImageRelativeFilePath cu))
      (o.cacheLocation ++ "/" ++ getImageRelativeFilePath cu) with
  | mk w2 res =>
    rw [hm] at hok
    cases res with
    | some e => exact absurd hok (by simp)
    | none => rfl

theorem cacheMiss_of_fail (o : Options) (cu : String) (m : Materializer) (w : World) (e : Err)
    (hfail : (m (deleteFile w (o.cacheLocation ++ "/" ++ getImageRelativeFilePath cu))
      (o.cacheLocation ++ "/" ++ getImageRelativeFilePath cu)).2 = some e) :
    cacheMiss o cu m w =
      ((m (deleteFile w (o.cacheLocation ++ "/" ++ getImageRelativeFilePath cu))
          (o.cacheLocation ++ "/" ++ getImageRelativeFilePath cu)).1,
       .error e) := by
  simp only [cacheMiss]
  cases hm : m (deleteFile w (o.cacheLocation ++ "/" ++ getImageRelativeFilePath cu))
      (o.cacheLocation ++ "/" ++ getImageRelativeFilePath cu) with
  | mk w2 res =>
    rw [hm] at hfail
    cases res with
    | some e' =>
      simp only [Option.some.injEq] at hfail
      rw [hfail]
    | none => exact absurd hfail (by simp)

theorem cacheMiss_ok_inv (o : Options) (cu : String) (m : Materializer) (w w1 : World)
    (p : String) (flag : Bool)
    (h : cacheMiss o cu m w = (w1, .ok (p, flag))) :
    (m (deleteFile w (o.cacheLocation ++ "/" ++ getImageRelativeFilePath cu))
      (o.cacheLocation ++ "/" ++ getImageRelativeFilePath cu)).2 = none ∧
    w1 = storeSet (m (deleteFile w (o.cacheLocation ++ "/" ++ getImageRelativeFilePath cu))
        (o.cacheLocation ++ "/" ++ getImageRelativeFilePath cu)).1
      cu (getImageRelativeFilePath cu) o.ttl ∧
    p = o.cacheLocation ++ "/" ++ getImageRelativeFilePath cu ∧ flag = true := by
  simp only [cacheMiss] at h
  cases hm : m (deleteFile w (o.cacheLocation ++ "/" ++ getImageRelativeFilePath cu))
      (o.cacheLocation ++ "/" ++ getImageRelativeFilePath cu) with
  | mk w2 res =>
    rw [hm] at h
    cases res with
    | some e => exact absurd h (by simp)
    | none =>
      simp only [Prod.mk.injEq, Except.ok.injEq] at h
      exact ⟨rfl, h.1.symm, h.2.1.symm, h.2.2.symm⟩

theorem cacheUrl_roundtrip_core (defaults : Options) (url : JSVal) (opts : OptionsObj)
    (m : Materializer) (w w1 : World) (p : String) (flag : Bool)
    (hm1 : ProducesFile m)
    (hsucc : cacheUrl defaults url opts m w = (w1, .ok (p, flag))) :
    isCachedURL defaults url opts w1 = (w1, .ok true) ∧
    ∀ m2 : Materializer, cacheUrl defaults url opts m2 w1 = (w1, .ok (p, false)) := by
  cases url with
  | num n => exact absurd hsucc (by simp [cacheUrl])
  | null => exact absurd hsucc (by simp [cacheUrl])
  | str s =>
    cases hcs : isCacheableStr s with
    | false =>
      rw [cacheUrl] at hsucc
      simp [hcs] at hsucc
    | true =>
      have hmissconcl : cacheMiss (mergeOptions opts defaults) (canonicalUrl defaults opts s)
            m w = (w1, .ok (p, flag)) →
          isCachedURL defaults (.str s) opts w1 = (w1, .ok true) ∧
          ∀ m2 : Materializer,
            cacheUrl defaults (.str s) opts m2 w1 = (w1, .ok (p, false)) := by
        intro hm
        obtain ⟨hok, hw1, hp, hflag⟩ := cacheMiss_ok_inv _ _ m w w1 p flag hm
        have hsg1 : storeGet w1 (canonicalUrl defaults opts s) =
            some (getImageRelativeFilePath (canonicalUrl defaults opts s)) := by
          rw [hw1]
          exact storeGet_storeSet_self _ _ _ _
        have hfe1 : fileExists w1 ((mergeOptions opts defaults).cacheLocation ++ "/" ++
            getImageRelativeFilePath (canonicalUrl defaults opts s)) = true := by
          rw [hw1, fileExists_storeSet]
          exact hm1 _ _ hok
        constructor
        · simp only [isCachedURL]
          rw [cacheUrl_hit defaults s opts _ w1 _ hcs hsg1 hfe1]
          rfl
        · intro m2
          rw [cacheUrl_hit defaults s opts m2 w1 _ hcs hsg1 hfe1, hp]
      cases hsg : storeGet w (canonicalUrl defaults opts s) with
      | some r =>
        cases hfe : fileExists w ((mergeOptions opts defaults).cacheLocation ++ "/" ++ r) with
        | true =>
          rw [cacheUrl_hit defaults s opts m w r hcs hsg hfe] at hsucc
          simp only [Prod.mk.injEq, Except.ok.injEq] at hsucc
          obtain ⟨hw1, hp, hflag⟩ := hsucc
          rw [hw1] at hsg hfe
          constructor
          · simp only [isCachedURL]
            rw [cacheUrl_hit defaults s opts _ w1 r hcs hsg hfe]
            rfl
          · intro m2
            rw [cacheUrl_hit defaults s opts m2 w1 r hcs hsg hfe, hp]
        | false =>
          rw [cacheUrl_miss defaults s opts m w hcs (Or.inr ⟨r, hsg, hfe⟩)] at hsucc
          exact hmissconcl hsucc
      | none =>
        rw [cacheUrl_miss defaults s opts m w hcs (Or.inl hsg)] at hsucc
        exact hmissconcl hsucc

end CacheManager

namespace CacheManager

open JSModel PathUtils

/-- C1: for every cacheable URL and options, once `downloadAndCacheUrl`
succeeds (with a download collaborator that produces the destination file
on success), `isCachedURL` resolves `true` without changing the world, and
a subsequent `downloadAndCacheUrl` — indeed `cacheUrl` under ANY
materializer, so the materialize step cannot be invoked — resolves with
the same absolute file path via the pure hit path, leaving the world
unchanged. -/
theorem fetch_probe_refetch_roundtrip (defaults : Options) (dl : DownloadFn)
    (url : JSVal) (opts : OptionsObj) (w w1 : World) (p : String) (flag : Bool)
    (hdl : ∀ u q hh w', (dl u q hh w').2 = none → fileExists (dl u q hh w').1 q = true)
    (hsucc : downloadAndCacheUrl defaults dl url opts w = (w1, .ok (p, flag))) :
    isCachedURL defaults url opts w1 = (w1, .ok true) ∧
    downloadAndCacheUrl defaults dl url opts w1 = (w1, .ok (p, false)) ∧
    ∀ m2 : Materializer, cacheUrl defaults url opts m2 w1 = (w1, .ok (p, false)) := by
  simp only [downloadAndCacheUrl] at hsucc
  have hm1 : ProducesFile (fun w' q => dl url q (mergeOptions opts defaults).headers w') :=
    fun w' q h => hdl url q _ w' h
  have hcore := cacheUrl_roundtrip_core defaults url opts _ w w1 p flag hm1 hsucc
  exact ⟨hcore.1, by simp only [downloadAndCacheUrl]; exact hcore.2 _, hcore.2⟩

/-- C1 witness: fetching `"http://h/a.png"` into an empty world succeeds,
after which the probe answers `true` and a re-fetch is a pure hit. -/
theorem fetch_probe_refetch_roundtrip_witness :
    isCachedURL sampleDefaults (.str "http://h/a.png") OptionsObj.empty wA =
      (wA, .ok true) ∧
    downloadAndCacheUrl sampleDefaults dlCreate (.str "http://h/a.png")
      OptionsObj.empty wA = (wA, .ok (fpA, false)) ∧
    ∀ m2 : Materializer, cacheUrl sampleDefaults (.str "http://h/a.png")
      OptionsObj.empty m2 wA = (wA, .ok (fpA, false)) :=
  fetch_probe_refetch_roundtrip sampleDefaults dlCreate (.str "http://h/a.png")
    OptionsObj.empty emptyWorld wA fpA true
    (by intro u q hh w' _; simp [dlCreate, createFile, fileExists])
    (by rfl)

/-- A probe materializer run on the miss branch: deletes the derived file
and records the derived path, creating nothing. -/
theorem cacheMiss_probe (o : Options) (cu : String) (w : World) :
    cacheMiss o cu (fun w' _ => (w', none)) w =
      (storeSet (deleteFile w (o.cacheLocation ++ "/" ++ getImageRelativeFilePath cu))
        cu (getImageRelativeFilePath cu) o.ttl,
       .ok (o.cacheLocation ++ "/" ++ getImageRelativeFilePath cu, true)) :=
  rfl

/-- C3: with a record-store entry for the canonical URL but no backing
file, `cacheUrl` does not reject: it runs the miss branch — deletes the
derived (stale) path, re-materializes, writes a fresh record — and
resolves with the file path; the final world has the record and the file.
In the same state, `isCachedURL` resolves `false` (not a rejection). -/
theorem dangling_record_self_heals (defaults : Options) (s : String)
    (opts : OptionsObj) (m : Materializer) (w : World) (r : String)
    (hcs : isCacheableStr s = true)
    (hm1 : ProducesFile m)
    (hsg : storeGet w (canonicalUrl defaults opts s) = some r)
    (hfe : fileExists w ((mergeOptions opts defaults).cacheLocation ++ "/" ++ r) = false)
    (hok : (m (deleteFile w (missFilePath defaults opts s))
      (missFilePath defaults opts s)).2 = none) :
    cacheUrl defaults (.str s) opts m w =
      (storeSet (m (deleteFile w (missFilePath defaults opts s))
          (missFilePath defaults opts s)).1
        (canonicalUrl defaults opts s)
        (getImageRelativeFilePath (canonicalUrl defaults opts s))
        (mergeOptions opts defaults).ttl,
       .ok (missFilePath defaults opts s, true)) ∧
    storeGet (storeSet (m (deleteFile w (missFilePath defaults opts s))
          (missFilePath defaults opts s)).1
        (canonicalUrl defaults opts s)
        (getImageRelativeFilePath (canonicalUrl defaults opts s))
        (mergeOptions opts defaults).ttl)
      (canonicalUrl defaults opts s) =
      some (getImageRelativeFilePath (canonicalUrl defaults opts s)) ∧
    fileExists (storeSet (m (deleteFile w (missFilePath defaults opts s))
          (missFilePath defaults opts s)).1
        (canonicalUrl defaults opts s)
        (getImageRelativeFilePath (canonicalUrl defaults opts s))
        (mergeOptions opts defaults).ttl)
      (missFilePath defaults opts s) = true ∧
    isCachedURL defaults (.str s) opts w =
      (storeSet (deleteFile w (missFilePath defaults opts s))
        (canonicalUrl defaults opts s)
        (getImageRelativeFilePath (canonicalUrl defaults opts s))
        (mergeOptions opts defaults).ttl,
       .ok false) := by
  simp only [missFilePath] at hok ⊢
  refine ⟨?_, storeGet_storeSet_self _ _ _ _, ?_, ?_⟩
  · rw [cacheUrl_miss defaults s opts m w hcs (Or.inr ⟨r, hsg, hfe⟩)]
    exact cacheMiss_of_ok _ _ m w hok
  · rw [fileExists_storeSet]
    exact hm1 _ _ hok
  · simp only [isCachedURL]
    rw [cacheUrl_miss defaults s opts _ w hcs (Or.inr ⟨r, hsg, hfe⟩), cacheMiss_probe]
    rfl

/-- C3 witness: a dangling record for `"http://h/a.png"` self-heals. -/
theorem dangling_record_self_heals_witness :
    cacheUrl sampleDefaults (.str "http://h/a.png") OptionsObj.empty mCreate wDangling =
      (storeSet (mCreate (deleteFile wDangling
          (missFilePath sampleDefaults OptionsObj.empty "http://h/a.png"))
          (missFilePath sampleDefaults OptionsObj.empty "http://h/a.png")).1
        (canonicalUrl sampleDefaults OptionsObj.empty "http://h/a.png")
        (getImageRelativeFilePath (canonicalUrl sampleDefaults OptionsObj.empty "http://h/a.png"))
        (mergeOptions OptionsObj.empty sampleDefaults).ttl,
       .ok (missFilePath sampleDefaults OptionsObj.empty "http://h/a.png", true)) ∧
    storeGet (storeSet (mCreate (deleteFile wDangling
          (missFilePath sampleDefaults OptionsObj.empty "http://h/a.png"))
          (missFilePath sampleDefaults OptionsObj.empty "http://h/a.png")).1
        (canonicalUrl sampleDefaults OptionsObj.empty "http://h/a.png")
        (getImageRelativeFilePath (canonicalUrl sampleDefaults OptionsObj.empty "http://h/a.png"))
        (mergeOptions OptionsObj.empty sampleDefaults).ttl)
      (canonicalUrl sampleDefaults OptionsObj.empty "http://h/a.png") =
      some (getImageRelativeFilePath (canonicalUrl sampleDefaults OptionsObj.empty "http://h/a.png")) ∧
    fileExists (storeSet (mCreate (deleteFile wDangling
          (missFilePath sampleDefaults OptionsObj.empty "http://h/a.png"))
          (missFilePath sampleDefaults OptionsObj.empty "http://h/a.png")).1
        (canonicalUrl sampleDefaults OptionsObj.empty "http://h/a.png")
        (getImageRelativeFilePath (canonicalUrl sampleDefaults OptionsObj.empty "http://h/a.png"))
        (mergeOptions OptionsObj.empty sampleDefaults).ttl)
      (missFilePath sampleDefaults OptionsObj.empty "http://h/a.png") = true ∧
    isCachedURL sampleDefaults (.str "http://h/a.png") OptionsObj.empty wDangling =
      (storeSet (deleteFile wDangling
          (missFilePath sampleDefaults OptionsObj.empty "http://h/a.png"))
        (canonicalUrl sampleDefaults OptionsObj.empty "http://h/a.png")
        (getImageRelativeFilePath (canonicalUrl sampleDefaults OptionsObj.empty "http://h/a.png"))
        (mergeOptions OptionsObj.empty sampleDefaults).ttl,
       .ok false) :=
  dangling_record_self_heals sampleDefaults "http://h/a.png" OptionsObj.empty
    mCreate wDangling relA (by decide)
    (by intro w' q h; simp [mCreate, createFile, fileExists])
    (by decide) (by decide) rfl

/-- C4: if the materialize step rejects on the miss branch, the whole
operation rejects with exactly that failure, and the record store is left
exactly as it was — `urlCache.set` is never reached. -/
theorem materialize_failure_no_record (defaults : Options) (s : String)
    (opts : OptionsObj) (m : Materializer) (w : World) (e : Err)
    (hcs : isCacheableStr s = true)
    (hps : PreservesStore m)
    (hmiss : storeGet w (canonicalUrl defaults opts s) = none ∨
      ∃ r, storeGet w (canonicalUrl defaults opts s) = some r ∧
        fileExists w ((mergeOptions opts defaults).cacheLocation ++ "/" ++ r) = false)
    (hfail : (m (deleteFile w (missFilePath defaults opts s))
      (missFilePath defaults opts s)).2 = some e) :
    cacheUrl defaults (.str s) opts m w =
      ((m (deleteFile w (missFilePath defaults opts s))
        (missFilePath defaults opts s)).1, .error e) ∧
    ((m (deleteFile w (missFilePath defaults opts s))
      (missFilePath defaults opts s)).1).store = w.store := by
  simp only [missFilePath] at hfail ⊢
  constructor
  · rw [cacheUrl_miss defaults s opts m w hcs hmiss]
    exact cacheMiss_of_fail _ _ m w e hfail
  · rw [hps]
    rfl

/-- C4 witness: a failing download on an empty world rejects with the
download's failure and writes no record. -/
theorem materialize_failure_no_record_witness :
    cacheUrl sampleDefaults (.str "http://h/a.png") OptionsObj.empty mFail emptyWorld =
      ((mFail (deleteFile emptyWorld
          (missFilePath sampleDefaults OptionsObj.empty "http://h/a.png"))
        (missFilePath sampleDefaults OptionsObj.empty "http://h/a.png")).1,
       .error (.materializeFailed "network down")) ∧
    ((mFail (deleteFile emptyWorld
        (missFilePath sampleDefaults OptionsObj.empty "http://h/a.png"))
      (missFilePath sampleDefaults OptionsObj.empty "http://h/a.png")).1).store =
      emptyWorld.store :=
  materialize_failure_no_record sampleDefaults "http://h/a.png" OptionsObj.empty
    mFail emptyWorld (.materializeFailed "network down") (by decide)
    (fun w' q => rfl) (Or.inl (by decide)) rfl

/-- C5: on the miss branch (no record, or dangling record), `isCachedURL`
is not read-only: it deletes any file at the derived absolute path and
writes a fresh record (canonical URL ↦ derived relative path, with the
merged options' TTL) even though its materialize step creates no file —
the probe resolves `false` yet leaves a record pointing at a file that
does not exist. -/
theorem probe_miss_not_readonly (defaults : Options) (s : String)
    (opts : OptionsObj) (w : World)
    (hcs : isCacheableStr s = true)
    (hmiss : storeGet w (canonicalUrl defaults opts s) = none ∨
      ∃ r, storeGet w (canonicalUrl defaults opts s) = some r ∧
        fileExists w ((mergeOptions opts defaults).cacheLocation ++ "/" ++ r) = false) :
    isCachedURL defaults (.str s) opts w =
      (storeSet (deleteFile w (missFilePath defaults opts s))
        (canonicalUrl defaults opts s)
        (getImageRelativeFilePath (canonicalUrl defaults opts s))
        (mergeOptions opts defaults).ttl,
       .ok false) ∧
    (storeSet (deleteFile w (missFilePath defaults opts s))
        (canonicalUrl defaults opts s)
        (getImageRelativeFilePath (canonicalUrl defaults opts s))
        (mergeOptions opts defaults).ttl).store.find?
      (fun entry => entry.1 == canonicalUrl defaults opts s) =
      some (canonicalUrl defaults opts s,
        getImageRelativeFilePath (canonicalUrl defaults opts s),
        (mergeOptions opts defaults).ttl) ∧
    fileExists (storeSet (deleteFile w (missFilePath defaults opts s))
        (canonicalUrl defaults opts s)
        (getImageRelativeFilePath (canonicalUrl defaults opts s))
        (mergeOptions opts defaults).ttl)
      (missFilePath defaults opts s) = false := by
  simp only [missFilePath]
  refine ⟨?_, ?_, ?_⟩
  · simp only [isCachedURL]
    rw [cacheUrl_miss defaults s opts _ w hcs hmiss, cacheMiss_probe]
    rfl
  · simp [storeSet]
  · rw [fileExists_storeSet]
    exact fileExists_deleteFile_self w _

/-- C5 witness: probing `"http://h/a.png"` in the empty world answers
`false` but deposits a record pointing at a non-existent file. -/
theorem probe_miss_not_readonly_witness :
    isCachedURL sampleDefaults (.str "http://h/a.png") OptionsObj.empty emptyWorld =
      (storeSet (deleteFile emptyWorld
          (missFilePath sampleDefaults OptionsObj.empty "http://h/a.png"))
        (canonicalUrl sampleDefaults OptionsObj.empty "http://h/a.png")
        (getImageRelativeFilePath (canonicalUrl sampleDefaults OptionsObj.empty "http://h/a.png"))
        (mergeOptions OptionsObj.empty sampleDefaults).ttl,
       .ok false) ∧
    (storeSet (deleteFile emptyWorld
        (missFilePath sampleDefaults OptionsObj.empty "http://h/a.png"))
        (canonicalUrl sampleDefaults OptionsObj.empty "http://h/a.png")
        (getImageRelativeFilePath (canonicalUrl sampleDefaults OptionsObj.empty "http://h/a.png"))
        (mergeOptions OptionsObj.empty sampleDefaults).ttl).store.find?
      (fun entry => entry.1 == canonicalUrl sampleDefaults OptionsObj.empty "http://h/a.png") =
      some (canonicalUrl sampleDefaults OptionsObj.empty "http://h/a.png",
        getImageRelativeFilePath (canonicalUrl sampleDefaults OptionsObj.empty "http://h/a.png"),
        (mergeOptions OptionsObj.empty sampleDefaults).ttl) ∧
    fileExists (storeSet (deleteFile emptyWorld
        (missFilePath sampleDefaults OptionsObj.empty "http://h/a.png"))
        (canonicalUrl sampleDefaults OptionsObj.empty "http://h/a.png")
        (getImageRelativeFilePath (canonicalUrl sampleDefaults OptionsObj.empty "http://h/a.png"))
        (mergeOptions OptionsObj.empty sampleDefaults).ttl)
      (missFilePath sampleDefaults OptionsObj.empty "http://h/a.png") = false :=
  probe_miss_not_readonly sampleDefaults "http://h/a.png" OptionsObj.empty
    emptyWorld (by decide) (Or.inl (by decide))

/-- C8: any input failing the scheme predicate — any non-`http(s)` string,
or non-string values such as `42` and `null` — makes every URL-taking
public operation reject with `NotCacheable` while leaving the world
untouched (no record-store, filesystem or network effect), whereas
`isURLCacheable` just returns `false`. -/
theorem not_cacheable_rejects_everywhere (url : JSVal)
    (hnc : isCacheable url = false) :
    ∀ (defaults : Options) (opts : OptionsObj) (m : Materializer)
      (dl : DownloadFn) (cp : CopyFn) (seedPath : String) (w : World),
      cacheUrl defaults url opts m w = (w, .error .notCacheable) ∧
      isCachedURL defaults url opts w = (w, .error .notCacheable) ∧
      downloadAndCacheUrl defaults dl url opts w = (w, .error .notCacheable) ∧
      seedAndCacheUrl defaults cp url seedPath opts w = (w, .error .notCacheable) ∧
      deleteUrl defaults url opts w = (w, .error .notCacheable) ∧
      isURLCacheable url = false := by
  intro defaults opts m dl cp seedPath w
  cases url with
  | str s =>
    have hs : isCacheableStr s = false := by simpa [isCacheable] using hnc
    refine ⟨?_, ?_, ?_, ?_, ?_, ?_⟩ <;>
      simp [cacheUrl, isCachedURL, downloadAndCacheUrl, seedAndCacheUrl, deleteUrl,
        isURLCacheable, isCacheable, hs]
  | num n => exact ⟨rfl, rfl, rfl, rfl, rfl, hnc⟩
  | null => exact ⟨rfl, rfl, rfl, rfl, rfl, hnc⟩

/-- C8 witness: the non-string input `42` is rejected by every operation
without any effect on the world. -/
theorem not_cacheable_rejects_everywhere_witness :
    cacheUrl sampleDefaults (.num 42) OptionsObj.empty mNone emptyWorld =
      (emptyWorld, .error .notCacheable) ∧
    isCachedURL sampleDefaults (.num 42) OptionsObj.empty emptyWorld =
      (emptyWorld, .error .notCacheable) ∧
    downloadAndCacheUrl sampleDefaults dlNone (.num 42) OptionsObj.empty emptyWorld =
      (emptyWorld, .error .notCacheable) ∧
    seedAndCacheUrl sampleDefaults cpNone (.num 42) "seed.png" OptionsObj.empty emptyWorld =
      (emptyWorld, .error .notCacheable) ∧
    deleteUrl sampleDefaults (.num 42) OptionsObj.empty emptyWorld =
      (emptyWorld, .error .notCacheable) ∧
    isURLCacheable (.num 42) = false :=
  not_cacheable_rejects_everywhere (.num 42) rfl sampleDefaults OptionsObj.empty
    mNone dlNone cpNone "seed.png" emptyWorld

end CacheManager
